import Mathlib

/-
  Verification of the ChatbotX conversational retrieval-over-code chain
  (src/generative_app/chains/conversational_retrieval_over_code.py)
  against its natural-language specification.

  Strings are modelled as `List Char` so that the regex-driven parser can be
  reasoned about by structural induction.
-/

namespace ChatbotX

/-- Strings of the Python program, modelled as lists of characters. -/
abbrev Str := List Char

/-- The backtick character (code point 96), written via `Char.ofNat`. -/
def btick : Char := Char.ofNat 96

/-- The newline character (code point 10). -/
def newlineChar : Char := Char.ofNat 10

/-- Boolean test that `pat` is a leading segment of `s`. -/
def listStartsWith : Str → Str → Bool
  | [], _ => true
  | _ :: _, [] => false
  | p :: ps, c :: cs => p == c && listStartsWith ps cs

/-- Index of the leftmost occurrence of `pat` inside `s`, if any.
This models the leftmost-match rule of Python `re.search` for a literal. -/
def firstOccur (pat : Str) : Str → Option Nat
  | [] => if listStartsWith pat [] then some 0 else none
  | c :: rest =>
    if listStartsWith pat (c :: rest) then some 0
    else (firstOccur pat rest).map (· + 1)

/-- The opening marker of the regex pattern: the literal characters of
the Python fence opener followed by the language tag, i.e. three backticks
then p,y,t,h,o,n. -/
def fenceOpen : Str := [btick, btick, btick, 'p', 'y', 't', 'h', 'o', 'n']

/-- The closing marker: three backticks. -/
def fenceClose : Str := [btick, btick, btick]

/-- The sentinel body string, Python literal comparison target N,o,n,e. -/
def noneLit : Str := ['N', 'o', 'n', 'e']

/-- Shallow embedding of `parse_code` (conversational_retrieval_over_code.py
lines 33-43).  The Python function runs
`re.search(pattern, output, re.DOTALL)` with a raw pattern consisting of the
fence opener with language tag, a lazy dot-group, the closing fence, a second
lazy dot-group and an end anchor;
the embedding below implements exactly that regex's semantics:

* The match starts at the leftmost occurrence of the opening marker.  (If the
  leftmost opener has no closing marker after it, no later opener can have one
  either, because the opening marker itself begins with the closing marker and
  the opener has no self-overlap; so the whole search fails, as modelled.)
* Group 1 is lazy, so it ends at the *first* occurrence of the closing marker
  after the opener.
* Group 2 is lazy and followed by the anchor; without `re.MULTILINE` the
  anchor matches at end-of-string and also just before a single trailing
  newline, and laziness picks the earlier position, so group 2 drops one
  trailing newline when present.
* Python then sets `python_code = None` when group 1 equals "None", leaving
  `explain_code` (group 2) untouched. -/
def parse_code (output : Str) : Option Str × Option Str :=
  match firstOccur fenceOpen output with
  | none => (none, none)
  | some i =>
    let tail := output.drop (i + fenceOpen.length)
    match firstOccur fenceClose tail with
    | none => (none, none)
    | some k =>
      let code := tail.take k
      let rest := tail.drop (k + fenceClose.length)
      let expl := if rest.getLast? = some newlineChar then rest.dropLast else rest
      if code = noneLit then (none, some expl) else (some code, some expl)

/-- The explanation text the regex captures as group 2 once the opener has
been located: `tail` is the text after the opener, `k` the index of the
closing fence within it; the capture is everything past the closer, minus
one trailing newline (the lazy group against the end anchor). -/
def capturedExplanation (tail : Str) (k : Nat) : Str :=
  let rest := tail.drop (k + fenceClose.length)
  if rest.getLast? = some newlineChar then rest.dropLast else rest

/-- Removal of every occurrence of `pat`, scanning left to right without
overlap, as Python `str.replace(pat, "")` does. -/
def removeAll (pat : Str) : Str → Str
  | [] => []
  | c :: rest =>
    if h : pat ≠ [] ∧ listStartsWith pat (c :: rest) = true then
      removeAll pat (rest.drop (pat.length - 1))
    else
      c :: removeAll pat rest
termination_by s => s.length
decreasing_by
  · simp only [List.length_drop, List.length_cons]
    omega
  · simp only [List.length_cons]
    omega

/-- The literal word streamlit as a character list. -/
def streamlitLit : Str := ['s', 't', 'r', 'e', 'a', 'm', 'l', 'i', 't']

/-- The literal word python as a character list. -/
def pythonLit : Str := ['p', 'y', 't', 'h', 'o', 'n']

/-- Line 112 / 165: strip the leak-prone substrings from the condensed
request, first all occurrences of streamlit, then all occurrences of python. -/
def sanitizeRequest (s : Str) : Str :=
  removeAll pythonLit (removeAll streamlitLit s)

/-! ## Context budgeter

`ConversationalRetrievalCodeChain._reduce_tokens_below_limit` (lines 203-218).
Per-document token costs come from `llm.get_num_tokens`, a token count and
hence a natural number; the configured `max_tokens_limit` is `Optional[int]`
tested for Python truthiness, so both `None` and `0` leave the documents
untouched. -/

/-- Python truthiness of the `max_tokens_limit` field: `None` and `0` are
falsy, every other number is truthy. -/
def truthyLimit : Option Nat → Bool
  | none => false
  | some l => l != 0

/-- The `while token_count > self.max_tokens_limit` loop of lines 214-216:
starting from the full prefix sum, repeatedly drop the last counted token
while the running total exceeds the limit, and return how many documents
remain.  The loop walks the token list from the back, so the recursion is
phrased over the reversed token list: `revTokens` is `tokens.reverse`. -/
def dropFromBack (limit : Nat) : List Nat → Nat
  | [] => 0
  | t :: rest =>
    if (t :: rest).sum ≤ limit then (t :: rest).length
    else dropFromBack limit rest

/-- The final value of `num_docs` computed by the loop. -/
def numDocsToKeep (tokens : List Nat) (limit : Nat) : Nat :=
  dropFromBack limit tokens.reverse

/-- Shallow embedding of `_reduce_tokens_below_limit` (lines 203-218).
`tok` models `llm.get_num_tokens`, `isStuff` models the
`isinstance(self.combine_docs_chain, StuffDocumentsChain)` test. -/
def reduce_tokens_below_limit {Doc : Type} (tok : Doc → Nat)
    (maxTokensLimit : Option Nat) (isStuff : Bool) (docs : List Doc) :
    List Doc :=
  if truthyLimit maxTokensLimit && isStuff then
    docs.take (numDocsToKeep (docs.map tok) (maxTokensLimit.getD 0))
  else
    docs

/-! ## Pipeline orchestrator

`BaseConversationalRetrievalCodeChain._call` (lines 93-133) and `._acall`
(lines 145-186).  The external collaborators (question generator LLM chain,
document retriever, combine-documents chain, constitutional/critic chain, and
langchain's library `_get_chat_history` serializer) are modelled as opaque
deterministic functions bundled in `PipelineServices`.  The `CallTrace`
records, per service, the argument of every call the orchestrator issues, so
that claims about which services are invoked and with what text are statable.
`H` is the type of the raw `chat_history` input value (langchain's
`CHAT_TURN_TYPE`). -/

/-- The input dictionary of one invocation: `question` is `none` when the
key is absent from the dict (Python would raise a `KeyError` on access). -/
structure PipelineInputs (H : Type) where
  question : Option Str
  chat_history : H

/-- The deterministic behaviours of the four LLM / store collaborators plus
langchain's default chat-history serializer. -/
structure PipelineServices (Doc H : Type) where
  condense : Str → Str
  retrieve : Str → PipelineInputs H → List Doc
  synthesize : List Doc → Str → Str → Str
  critique : Str → Str
  defaultGetChatHistory : H → Str

/-- The chain's configuration flags (pydantic fields of
`BaseConversationalRetrievalCodeChain`). -/
structure PipelineConfig (H : Type) where
  return_source_documents : Bool
  return_generated_question : Bool
  return_revision_request : Bool
  get_chat_history : Option (H → Str)

/-- The value of `is_code_not_safe`: the Python literal `True` installed at
line 121 / 174, or the critic chain's raw string output from line 124 / 177. -/
inductive SafetyVerdict where
  | boolTrue : SafetyVerdict
  | fromCritic : Str → SafetyVerdict
deriving DecidableEq

/-- The only failure the embedded orchestrator itself can raise: accessing
the missing `question` key of the inputs dict. -/
inductive PipelineError where
  | missingQuestion : PipelineError
deriving DecidableEq

/-- The output dictionary (lines 126-133 / 179-186); a field is `none` when
the corresponding key is not added to the dict. -/
structure PipelineResult (Doc : Type) where
  code : Option Str
  explanation : Option Str
  source_documents : Option (List Doc)
  generated_question : Option Str
  revision_request : Option SafetyVerdict
deriving DecidableEq

/-- Instrumentation: the arguments of every condense / retrieve / synthesize /
critique service call issued during one invocation, in issue order per
service. -/
structure CallTrace (Doc : Type) where
  condenseCalls : List Str
  retrieveCalls : List Str
  synthesizeCalls : List (List Doc × Str × Str)
  critiqueCalls : List Str
deriving DecidableEq

/-- The trace of an invocation that issued no service call. -/
def emptyTrace {Doc : Type} : CallTrace Doc := ⟨[], [], [], []⟩

/-- Shallow embedding of `_call` (lines 93-133), step by step:
line 99 reads `inputs["question"]`; line 100 runs the question generator on
it; line 107/109 fetches documents for the condensed request; line 110 copies
the inputs dict (so its `question` entry stays the original request); line
112 strips streamlit/python from the condensed request; lines 113-115
serialize the chat history into the copied dict; line 116 runs the
combine-documents chain on the copied dict, whose `question` is still the
original request; line 119 parses; lines 121-124 default the verdict to the
Python literal `True` and only consult the critic when the parsed code is not
`None`; lines 126-133 assemble the output dict under the configuration
flags. -/
def call {Doc H : Type} (cfg : PipelineConfig H) (svc : PipelineServices Doc H)
    (inputs : PipelineInputs H) :
    Except PipelineError (PipelineResult Doc) × CallTrace Doc :=
  match inputs.question with
  | none => (Except.error PipelineError.missingQuestion, emptyTrace)
  | some request =>
    let newRequest := svc.condense request
    let docs := svc.retrieve newRequest inputs
    let newRequestSanitized := sanitizeRequest newRequest
    let chatHistoryStr :=
      (cfg.get_chat_history.getD svc.defaultGetChatHistory) inputs.chat_history
    let answer := svc.synthesize docs request chatHistoryStr
    let code := (parse_code answer).1
    let expl := (parse_code answer).2
    let verdict :=
      match code with
      | some c => SafetyVerdict.fromCritic (svc.critique c)
      | none => SafetyVerdict.boolTrue
    (Except.ok
      { code := code
        explanation := expl
        source_documents :=
          if cfg.return_source_documents then some docs else none
        generated_question :=
          if cfg.return_generated_question then some newRequestSanitized else none
        revision_request :=
          if cfg.return_revision_request then some verdict else none },
     { condenseCalls := [request]
       retrieveCalls := [newRequest]
       synthesizeCalls := [(docs, request, chatHistoryStr)]
       critiqueCalls := match code with | some c => [c] | none => [] })

/-- Shallow embedding of `_acall` (lines 145-186), translated independently
of `call`, line by line.  The awaited service calls are modelled by the same
deterministic functions ("identical service responses"); note that line 177,
like line 124, invokes the critic chain with its blocking `run` method. -/
def acall {Doc H : Type} (cfg : PipelineConfig H) (svc : PipelineServices Doc H)
    (inputs : PipelineInputs H) :
    Except PipelineError (PipelineResult Doc) × CallTrace Doc :=
  match inputs.question with
  | none => (Except.error PipelineError.missingQuestion, emptyTrace)
  | some request =>
    let newRequest := svc.condense request
    let docs := svc.retrieve newRequest inputs
    let newRequestSanitized := sanitizeRequest newRequest
    let chatHistoryStr :=
      (cfg.get_chat_history.getD svc.defaultGetChatHistory) inputs.chat_history
    let answer := svc.synthesize docs request chatHistoryStr
    let code := (parse_code answer).1
    let expl := (parse_code answer).2
    let verdict :=
      match code with
      | some c => SafetyVerdict.fromCritic (svc.critique c)
      | none => SafetyVerdict.boolTrue
    (Except.ok
      { code := code
        explanation := expl
        source_documents :=
          if cfg.return_source_documents then some docs else none
        generated_question :=
          if cfg.return_generated_question then some newRequestSanitized else none
        revision_request :=
          if cfg.return_revision_request then some verdict else none },
     { condenseCalls := [request]
       retrieveCalls := [newRequest]
       synthesizeCalls := [(docs, request, chatHistoryStr)]
       critiqueCalls := match code with | some c => [c] | none => [] })

/-- Shallow embedding of `save` (lines 188-191): when a custom
`get_chat_history` formatter is configured the method raises before
delegating, so the base-class save (which performs the file write) is never
reached.  The boolean records whether the base-class save was invoked. -/
def save {H : Type} (get_chat_history : Option (H → Str)) :
    Except Str Unit × Bool :=
  match get_chat_history with
  | some _ =>
    (Except.error
      "Chain not savable when `get_chat_history` is not None.".toList, false)
  | none => (Except.ok (), true)

/-- The raw answer text the combine-documents chain returns inside
`call cfg svc ⟨some q, hist⟩`: the synthesizer applied to the retrieved
documents, the *original* request and the serialized history.  Used to state
hypotheses about the parse of the generated answer. -/
def answerOf {Doc H : Type} (cfg : PipelineConfig H)
    (svc : PipelineServices Doc H) (q : Str) (hist : H) : Str :=
  svc.synthesize (svc.retrieve (svc.condense q) ⟨some q, hist⟩) q
    ((cfg.get_chat_history.getD svc.defaultGetChatHistory) hist)

/-! ## Concrete service bundles used by witnesses and counterexamples -/

/-- Configuration with every optional output enabled and the default history
serializer. -/
def cfgAllOn : PipelineConfig Unit := ⟨true, true, true, none⟩

/-- Configuration with every optional output disabled. -/
def cfgAllOff : PipelineConfig Unit := ⟨false, false, false, none⟩

/-- Configuration returning only the revision request. -/
def cfgRevOnly : PipelineConfig Unit := ⟨false, false, true, none⟩

/-- Services whose condenser rewrites the question to a fixed different
string; the synthesizer output is irrelevant. -/
def svcCondense : PipelineServices Nat Unit :=
  ⟨fun _ => "the condensed query".toList, fun _ _ => [],
   fun _ _ _ => "out".toList, fun _ => "no".toList, fun _ => []⟩

/-- Services whose synthesizer returns plain text without any code fence. -/
def svcNoFence : PipelineServices Unit Unit :=
  ⟨fun q => q, fun _ _ => [], fun _ _ _ => "plain text".toList,
   fun _ => "v".toList, fun _ => []⟩

/-- Services whose synthesizer returns a fence with an empty code body. -/
def svcEmptyCode : PipelineServices Unit Unit :=
  ⟨fun q => q, fun _ _ => [], fun _ _ _ => "```python``` done".toList,
   fun _ => "verdict".toList, fun _ => []⟩

/-- Services whose synthesizer returns text with no fence, used for the
empty-question scenario. -/
def svcPlain : PipelineServices Unit Unit :=
  ⟨fun _ => "c".toList, fun _ _ => [], fun _ _ _ => "ans".toList,
   fun _ => [], fun _ => []⟩

/-! ## Parser lemmas -/

/-- A list starts with itself followed by anything. -/
lemma listStartsWith_append (p t : Str) : listStartsWith p (p ++ t) = true := by
  induction p with
  | nil => cases t <;> rfl
  | cons c p ih => simp [listStartsWith, ih]

/-- If the pattern heads the string, its leftmost occurrence is at index 0. -/
lemma firstOccur_of_startsWith (p s : Str) (h : listStartsWith p s = true) :
    firstOccur p s = some 0 := by
  cases s <;> simp [firstOccur, h]

/-- The leftmost occurrence of `p` in `p ++ t` is at index 0. -/
lemma firstOccur_append_self (p t : Str) : firstOccur p (p ++ t) = some 0 :=
  firstOccur_of_startsWith p (p ++ t) (listStartsWith_append p t)

/-- If the closing fence does not occur in `C` extended by two backticks, then
in `C ++ fenceClose ++ E` its leftmost occurrence is exactly at the planted
fence, i.e. at index `C.length`.  (The two-backtick extension rules out a
planted fence being reached earlier through trailing backticks of `C`.) -/
lemma firstOccur_close_mid (E : Str) :
    ∀ C : Str, firstOccur fenceClose (C ++ [btick, btick]) = none →
      firstOccur fenceClose (C ++ (fenceClose ++ E)) = some C.length := by
  intro C
  induction C with
  | nil =>
    intro _
    simpa using firstOccur_append_self fenceClose E
  | cons c C' ih =>
    intro h
    rw [List.cons_append, firstOccur] at h
    rcases hs : listStartsWith fenceClose (c :: (C' ++ [btick, btick])) with _ | _
    · rw [hs] at h
      simp only [Bool.false_eq_true, if_false, Option.map_eq_none'] at h
      have hs2 : listStartsWith fenceClose (c :: (C' ++ (fenceClose ++ E))) = false := by
        rcases C' with _ | ⟨d, _ | ⟨e, C''⟩⟩ <;>
          simp_all [fenceClose, listStartsWith]
      rw [List.cons_append, firstOccur, hs2]
      simp [ih h]
    · rw [hs] at h
      simp at h


/-- If the closing fence does not occur in `C` and `C` does not end with a
backtick, then it does not occur in `C ++ "``"` either. -/
lemma firstOccur_close_extend :
    ∀ C : Str, firstOccur fenceClose C = none → C.getLast? ≠ some btick →
      firstOccur fenceClose (C ++ [btick, btick]) = none := by
  intro C
  induction C with
  | nil => intro _ _; decide
  | cons c C' ih =>
    intro h1 h2
    rw [firstOccur] at h1
    rcases hs : listStartsWith fenceClose (c :: C') with _ | _
    · rw [hs] at h1
      simp only [Bool.false_eq_true, if_false, Option.map_eq_none'] at h1
      rw [List.cons_append, firstOccur]
      rcases C' with _ | ⟨d, C''⟩
      · have hc : ¬ c = btick := by
          intro he; exact h2 (by simp [he])
        have hcond : listStartsWith fenceClose (c :: ([] ++ [btick, btick])) = false := by
          simp [fenceClose, listStartsWith]
          intro he; exact absurd he.symm hc
        rw [hcond]
        simp only [Bool.false_eq_true, if_false, Option.map_eq_none']
        decide
      · have h2' : (d :: C'').getLast? ≠ some btick := by
          rw [List.getLast?_cons_cons] at h2; exact h2
        have hcond : listStartsWith fenceClose (c :: (d :: C'' ++ [btick, btick])) = false := by
          rcases C'' with _ | ⟨e, C'''⟩
          · have hd : d ≠ btick := by simpa using h2'
            have hbd : (btick == d) = false := beq_eq_false_iff_ne.mpr (Ne.symm hd)
            simp [fenceClose, listStartsWith, hbd]
          · simpa [fenceClose, listStartsWith] using hs
        rw [hcond]
        simp only [Bool.false_eq_true, if_false, Option.map_eq_none']
        simpa using ih h1 h2'
    · rw [hs] at h1
      simp at h1

/-- Parsing raw text assembled as opener, body `C`, closing fence, trailer
`E`, under the side conditions that keep the regex groups aligned with the
assembly: no closing fence occurs inside `C`, `C` does not end with a
backtick, and `E` does not end with a newline.  The code is the sentinel
`None` test of line 41 applied to `C`; the explanation is `E` in either
case. -/
lemma parse_code_built (C E : Str)
    (hC : firstOccur fenceClose C = none)
    (hCl : C.getLast? ≠ some btick)
    (hE : E.getLast? ≠ some newlineChar) :
    parse_code (fenceOpen ++ (C ++ (fenceClose ++ E))) =
      ((if C = noneLit then none else some C), some E) := by
  have e1 : firstOccur fenceOpen (fenceOpen ++ (C ++ (fenceClose ++ E))) = some 0 :=
    firstOccur_append_self _ _
  have e3 : firstOccur fenceClose (C ++ (fenceClose ++ E)) = some C.length :=
    firstOccur_close_mid E C (firstOccur_close_extend C hC hCl)
  have e2 : (fenceOpen ++ (C ++ (fenceClose ++ E))).drop (0 + fenceOpen.length)
      = C ++ (fenceClose ++ E) := by
    rw [Nat.zero_add, List.drop_left]
  have e4 : (C ++ (fenceClose ++ E)).take C.length = C := List.take_left C _
  have e5 : (C ++ (fenceClose ++ E)).drop (C.length + fenceClose.length) = E := by
    rw [← List.append_assoc, ← List.length_append, List.drop_left]
  rw [parse_code, e1]
  simp only [e2, e3, e4, e5, if_neg hE]
  rcases eq_or_ne C noneLit with h | h <;> simp [h]

/-! ## Budgeter lemmas -/

/-- The loop never keeps more documents than it was given. -/
lemma dropFromBack_le (L : Nat) : ∀ r : List Nat, dropFromBack L r ≤ r.length := by
  intro r
  induction r with
  | nil => simp [dropFromBack]
  | cons t rest ih =>
    rw [dropFromBack]
    split
    · exact Nat.le_refl _
    · exact Nat.le_trans ih (by simp)

/-- The tokens the loop keeps (a front segment of the original token list,
which is the reverse of the loop's working list) sum to at most the limit. -/
lemma sum_take_dropFromBack (L : Nat) :
    ∀ r : List Nat, (r.reverse.take (dropFromBack L r)).sum ≤ L := by
  intro r
  induction r with
  | nil => simp [dropFromBack]
  | cons t rest ih =>
    rw [dropFromBack]
    split
    · rename_i hsum
      rw [← List.length_reverse, List.take_length, List.sum_reverse]
      exact hsum
    · rw [List.reverse_cons,
        List.take_append_of_le_length
          (by simpa using dropFromBack_le L rest)]
      exact ih

/-- The kept prefix of the token list is within the limit. -/
lemma sum_take_numDocsToKeep (tokens : List Nat) (L : Nat) :
    (tokens.take (numDocsToKeep tokens L)).sum ≤ L := by
  simpa [numDocsToKeep] using sum_take_dropFromBack L tokens.reverse

/-- When the whole token list is within the limit the loop keeps everything. -/
lemma numDocsToKeep_of_sum_le (tokens : List Nat) (L : Nat)
    (h : tokens.sum ≤ L) : numDocsToKeep tokens L = tokens.length := by
  rw [numDocsToKeep]
  cases ht : tokens.reverse with
  | nil =>
    have : tokens = [] := by simpa using congrArg List.reverse ht
    simp [this, dropFromBack]
  | cons a r =>
    rw [dropFromBack]
    rw [← ht, List.sum_reverse, List.length_reverse]
    simp [h]

/-- The loop keeps as many documents as fit: any front-segment length whose
token sum is within the limit is a lower bound on the kept count. -/
lemma le_dropFromBack (L : Nat) :
    ∀ (r : List Nat) (n : Nat), n ≤ r.length → (r.reverse.take n).sum ≤ L →
      n ≤ dropFromBack L r := by
  intro r
  induction r with
  | nil =>
    intro n hn _
    have : n = 0 := by simpa using hn
    simp [this, dropFromBack]
  | cons t rest ih =>
    intro n hn hsum
    rw [dropFromBack]
    split
    · exact hn
    · rename_i hgt
      have hne : n ≠ (t :: rest).length := by
        intro he
        rw [he, ← List.length_reverse, List.take_length, List.sum_reverse] at hsum
        exact hgt hsum
      have hn' : n ≤ rest.length :=
        Nat.lt_succ_iff.mp (Nat.lt_of_le_of_ne (by simpa using hn) (by simpa using hne))
      apply ih n hn'
      rw [List.reverse_cons, List.take_append_of_le_length (by simpa using hn')] at hsum
      exact hsum

/-- Front-of-list phrasing of `le_dropFromBack`. -/
lemma le_numDocsToKeep (tokens : List Nat) (L : Nat) (n : Nat)
    (h1 : n ≤ tokens.length) (h2 : (tokens.take n).sum ≤ L) :
    n ≤ numDocsToKeep tokens L := by
  rw [numDocsToKeep]
  exact le_dropFromBack L tokens.reverse n (by simpa using h1) (by simpa using h2)

/-! ## Orchestrator characterization -/

/-- Closed form of one `call` invocation whose `question` key is present:
each service is consulted exactly once, the synthesizer is handed the
original request, and the output dict is assembled from the parse of the
synthesizer's answer under the configuration flags. -/
lemma call_some_eq {Doc H : Type} (cfg : PipelineConfig H)
    (svc : PipelineServices Doc H) (q : Str) (hist : H) :
    call cfg svc ⟨some q, hist⟩ =
      (Except.ok
        { code := (parse_code (answerOf cfg svc q hist)).1
          explanation := (parse_code (answerOf cfg svc q hist)).2
          source_documents :=
            if cfg.return_source_documents
            then some (svc.retrieve (svc.condense q) ⟨some q, hist⟩) else none
          generated_question :=
            if cfg.return_generated_question
            then some (sanitizeRequest (svc.condense q)) else none
          revision_request :=
            if cfg.return_revision_request
            then some (match (parse_code (answerOf cfg svc q hist)).1 with
              | some c => SafetyVerdict.fromCritic (svc.critique c)
              | none => SafetyVerdict.boolTrue)
            else none },
       { condenseCalls := [q]
         retrieveCalls := [svc.condense q]
         synthesizeCalls :=
           [(svc.retrieve (svc.condense q) ⟨some q, hist⟩, q,
             (cfg.get_chat_history.getD svc.defaultGetChatHistory) hist)]
         critiqueCalls :=
           match (parse_code (answerOf cfg svc q hist)).1 with
           | some c => [c]
           | none => [] }) := rfl

/-! ## Claim theorems -/

/-- C1 (counterexample): the question text handed to the combine-documents
chain is not the pre-sanitized condensed query.  With a condenser that
rewrites the request to a fixed different string, the sole synthesize call
receives the caller's original question, which differs from the condensed
query. -/
theorem synthesizer_question_not_condensed_cex :
    (call cfgAllOff svcCondense ⟨some "orig".toList, ()⟩).2.synthesizeCalls =
      [([], "orig".toList, [])] ∧
    "orig".toList ≠ svcCondense.condense "orig".toList := by
  constructor
  · rfl
  · decide

/-- C1 (amended): the question text handed to the combine-documents
generation call is the caller's original question, unchanged — the condensed
query is used only for retrieval — and the sanitization that strips
leak-prone substrings affects only the optional generated_question output
field, never the text used for generation. -/
theorem synthesizer_receives_original_question {Doc H : Type}
    (cfg : PipelineConfig H) (svc : PipelineServices Doc H) (q : Str) (hist : H) :
    (call cfg svc ⟨some q, hist⟩).2.synthesizeCalls =
      [(svc.retrieve (svc.condense q) ⟨some q, hist⟩, q,
        (cfg.get_chat_history.getD svc.defaultGetChatHistory) hist)] ∧
    (call cfg svc ⟨some q, hist⟩).2.retrieveCalls = [svc.condense q] ∧
    ∃ r, (call cfg svc ⟨some q, hist⟩).1 = Except.ok r ∧
      r.generated_question =
        (if cfg.return_generated_question
         then some (sanitizeRequest (svc.condense q)) else none) := by
  rw [call_some_eq]
  exact ⟨rfl, rfl, _, rfl, rfl⟩

/-- C2: when the parser extracts no code, the critic service is never
invoked and the verdict is the fail-closed Python literal `True`
(is_code_not_safe), surfaced as the revision request when that output is
requested. -/
theorem absent_code_fail_closed {Doc H : Type} (cfg : PipelineConfig H)
    (svc : PipelineServices Doc H) (q : Str) (hist : H)
    (h : (parse_code (answerOf cfg svc q hist)).1 = none) :
    (call cfg svc ⟨some q, hist⟩).2.critiqueCalls = [] ∧
    ∃ r, (call cfg svc ⟨some q, hist⟩).1 = Except.ok r ∧ r.code = none ∧
      r.revision_request =
        (if cfg.return_revision_request then some SafetyVerdict.boolTrue else none) := by
  rw [call_some_eq, h]
  exact ⟨rfl, _, rfl, rfl, rfl⟩

/-- C2 (witness): a run whose synthesizer returns fence-free text parses to
no code, issues no critique call, and carries the fail-closed verdict. -/
theorem absent_code_fail_closed_witness :
    (parse_code (answerOf cfgAllOn svcNoFence "q".toList ())).1 = none ∧
    ((call cfgAllOn svcNoFence ⟨some "q".toList, ()⟩).2.critiqueCalls = [] ∧
     ∃ r, (call cfgAllOn svcNoFence ⟨some "q".toList, ()⟩).1 = Except.ok r ∧
       r.code = none ∧
       r.revision_request =
         (if cfgAllOn.return_revision_request
          then some SafetyVerdict.boolTrue else none)) :=
  ⟨by decide, absent_code_fail_closed cfgAllOn svcNoFence "q".toList () (by decide)⟩

/-- C3 (counterexample): raw text whose first python fence body is exactly
the sentinel None parses to absent code but a *present* explanation — the
text after the closing fence is kept, not discarded. -/
theorem sentinel_explanation_kept_cex :
    parse_code "```pythonNone```X".toList = (none, some "X".toList) ∧
    parse_code "```pythonNone```X".toList ≠
      ((none : Option Str), (none : Option Str)) := by
  constructor
  · decide
  · decide

/-- C3 (amended): for every raw string whose first python-tagged code fence
has a body that is exactly the literal None — the opener at its leftmost
occurrence `i`, the closer at its first occurrence `k` after the opener, and
the body between them equal to the sentinel — parse returns code absent
together with the explanation captured after the closing fence (which is not
discarded). -/
theorem sentinel_parse_amended (s : Str) (i k : Nat)
    (hi : firstOccur fenceOpen s = some i)
    (hk : firstOccur fenceClose (s.drop (i + fenceOpen.length)) = some k)
    (hbody : (s.drop (i + fenceOpen.length)).take k = noneLit) :
    parse_code s =
      (none, some (capturedExplanation (s.drop (i + fenceOpen.length)) k)) := by
  rw [parse_code, hi]
  simp only [hk, hbody, capturedExplanation]
  simp

/-- C3 (witness): the amended sentinel behaviour on a typical raw string
with prose before the fence and a newline-terminated trailer. -/
theorem sentinel_parse_amended_witness :
    (firstOccur fenceOpen "Sure!\n```pythonNone``` explanation\n".toList
        = some 6) ∧
    (firstOccur fenceClose
        ("Sure!\n```pythonNone``` explanation\n".toList.drop
          (6 + fenceOpen.length)) = some 4) ∧
    (("Sure!\n```pythonNone``` explanation\n".toList.drop
        (6 + fenceOpen.length)).take 4 = noneLit) ∧
    parse_code "Sure!\n```pythonNone``` explanation\n".toList =
      (none, some " explanation".toList) :=
  ⟨by decide, by decide, by decide, by
    rw [sentinel_parse_amended "Sure!\n```pythonNone``` explanation\n".toList
      6 4 (by decide) (by decide) (by decide)]
    decide⟩

/-- C4: the context budgeter returns the input unchanged when no token limit
is configured or the combine chain is not the stuff chain; otherwise it keeps
the longest front segment of the documents whose token costs fit the limit
(so the output is always a front segment of the input, its kept cost is
within the limit, and no valid front segment is dropped); in particular with
limit 100 and three documents costing 40 tokens each it keeps exactly the
first two. -/
theorem budgeter_reduce_spec :
    (∀ (Doc : Type) (tok : Doc → Nat) (st : Bool) (docs : List Doc),
      reduce_tokens_below_limit tok none st docs = docs) ∧
    (∀ (Doc : Type) (tok : Doc → Nat) (L : Option Nat) (docs : List Doc),
      reduce_tokens_below_limit tok L false docs = docs) ∧
    (∀ (Doc : Type) (tok : Doc → Nat) (L : Option Nat) (st : Bool)
       (docs : List Doc),
      ∃ n, reduce_tokens_below_limit tok L st docs = docs.take n) ∧
    (∀ (Doc : Type) (tok : Doc → Nat) (L : Nat) (docs : List Doc),
      ((reduce_tokens_below_limit tok (some (L + 1)) true docs).map tok).sum
        ≤ L + 1) ∧
    (∀ (Doc : Type) (tok : Doc → Nat) (L : Nat) (docs : List Doc) (n : Nat),
      n ≤ docs.length → ((docs.take n).map tok).sum ≤ L + 1 →
        n ≤ (reduce_tokens_below_limit tok (some (L + 1)) true docs).length) ∧
    reduce_tokens_below_limit (fun t : Nat => t) (some 100) true [40, 40, 40]
      = [40, 40] := by
  refine ⟨?_, ?_, ?_, ?_, ?_, ?_⟩
  · intro Doc tok st docs
    simp [reduce_tokens_below_limit, truthyLimit]
  · intro Doc tok L docs
    simp [reduce_tokens_below_limit]
  · intro Doc tok L st docs
    by_cases h : (truthyLimit L && st) = true
    · exact ⟨_, by rw [reduce_tokens_below_limit, if_pos h]⟩
    · exact ⟨docs.length, by rw [reduce_tokens_below_limit, if_neg h, List.take_length]⟩
  · intro Doc tok L docs
    have h : (truthyLimit (some (L + 1)) && true) = true := by simp [truthyLimit]
    rw [reduce_tokens_below_limit, if_pos h, List.map_take]
    simpa using sum_take_numDocsToKeep (docs.map tok) (L + 1)
  · intro Doc tok L docs n h1 h2
    have h : (truthyLimit (some (L + 1)) && true) = true := by simp [truthyLimit]
    rw [reduce_tokens_below_limit, if_pos h, List.length_take]
    refine le_min ?_ h1
    refine le_numDocsToKeep (docs.map tok) _ n (by simpa using h1) ?_
    rw [← List.map_take]
    simpa using h2
  · decide

/-- C4 (witness): the maximality conjunct applied at the concrete scenario:
both front-segment lengths 2 and 100/40/40/40 hypotheses hold and the
budgeter keeps at least two documents there. -/
theorem budgeter_reduce_spec_witness :
    2 ≤ (reduce_tokens_below_limit (fun t : Nat => t) (some 100) true
          [40, 40, 40]).length :=
  budgeter_reduce_spec.2.2.2.2.1 Nat (fun t => t) 99 [40, 40, 40] 2
    (by decide) (by decide)

/-- C5 (counterexample): the parser round-trip fails for a code string that
ends with a backtick even though it contains no closing-fence sequence: the
lazy group terminates at the earlier backtick run, shifting one backtick into
the explanation. -/
theorem round_trip_cex :
    firstOccur fenceClose "x`".toList = none ∧
    parse_code (fenceOpen ++ ("x`".toList ++ (fenceClose ++ "!".toList))) =
      (some "x".toList, some "`!".toList) ∧
    parse_code (fenceOpen ++ ("x`".toList ++ (fenceClose ++ "!".toList))) ≠
      (some "x`".toList, some "!".toList) := by
  refine ⟨by decide, by decide, by decide⟩

/-- C5 (amended): the parser round-trip holds for any code string C that
contains no closing-fence sequence, does not end with a backtick, and is not
the sentinel None, and any explanation string E that does not end with a
newline: parsing the assembled raw text returns (C, E) exactly. -/
theorem parse_code_round_trip (C E : Str)
    (h1 : firstOccur fenceClose C = none)
    (h2 : C.getLast? ≠ some btick)
    (h3 : C ≠ noneLit)
    (h4 : E.getLast? ≠ some newlineChar) :
    parse_code (fenceOpen ++ (C ++ (fenceClose ++ E))) = (some C, some E) := by
  rw [parse_code_built C E h1 h2 h4, if_neg h3]

/-- C5 (witness): the amended round-trip at concrete code and explanation. -/
theorem parse_code_round_trip_witness :
    (firstOccur fenceClose "a".toList = none) ∧
    ("a".toList.getLast? ≠ some btick) ∧
    ("a".toList ≠ noneLit) ∧
    ("b".toList.getLast? ≠ some newlineChar) ∧
    parse_code (fenceOpen ++ ("a".toList ++ (fenceClose ++ "b".toList))) =
      (some "a".toList, some "b".toList) :=
  ⟨by decide, by decide, by decide, by decide,
   parse_code_round_trip "a".toList "b".toList
     (by decide) (by decide) (by decide) (by decide)⟩

/-- C6: the budgeter is idempotent: reducing an already reduced document
sequence under the same (deterministic) token counter, limit and chain kind
changes nothing. -/
theorem budgeter_idempotent :
    ∀ (Doc : Type) (tok : Doc → Nat) (L : Option Nat) (st : Bool)
      (docs : List Doc),
      reduce_tokens_below_limit tok L st (reduce_tokens_below_limit tok L st docs)
        = reduce_tokens_below_limit tok L st docs := by
  intro Doc tok L st docs
  by_cases h : (truthyLimit L && st) = true
  · rw [reduce_tokens_below_limit, if_pos h, reduce_tokens_below_limit, if_pos h]
    have hsum :
        (((docs.take (numDocsToKeep (docs.map tok) (L.getD 0))).map tok)).sum
          ≤ L.getD 0 := by
      rw [List.map_take]
      exact sum_take_numDocsToKeep (docs.map tok) (L.getD 0)
    rw [numDocsToKeep_of_sum_le _ _ hsum, List.length_map, List.take_length]
  · simp [reduce_tokens_below_limit, h]

/-- C7: the blocking entry point and the suspendable entry point compute
identical results and traces for identical inputs and identical service
behaviours. -/
theorem acall_eq_call {Doc H : Type} (cfg : PipelineConfig H)
    (svc : PipelineServices Doc H) (inputs : PipelineInputs H) :
    acall cfg svc inputs = call cfg svc inputs := rfl

/-- C8 (counterexample): an invocation whose question is present but empty
is not rejected: the condenser is called with the empty string and the
pipeline completes normally instead of failing with an invalid-request
error. -/
theorem empty_question_not_rejected_cex :
    (call cfgAllOff svcPlain ⟨some [], ()⟩).2.condenseCalls = [[]] ∧
    (call cfgAllOff svcPlain ⟨some [], ()⟩).1 =
      Except.ok ⟨none, none, none, none, none⟩ :=
  ⟨rfl, rfl⟩

/-- C8 (amended): only a *missing* question key fails immediately, with no
service call made; an empty question string is not validated against and is
processed normally, the condense call receiving the empty string. -/
theorem question_validation_amended :
    (∀ (Doc H : Type) (cfg : PipelineConfig H) (svc : PipelineServices Doc H)
       (hist : H),
      call cfg svc ⟨none, hist⟩ =
        (Except.error PipelineError.missingQuestion, emptyTrace)) ∧
    (∀ (Doc H : Type) (cfg : PipelineConfig H) (svc : PipelineServices Doc H)
       (hist : H),
      (call cfg svc ⟨some [], hist⟩).2.condenseCalls = [[]]) :=
  ⟨fun _ _ _ _ _ => rfl, fun _ _ _ _ _ => rfl⟩

/-- C9 (counterexample): when the parser extracts an *empty* code body the
critic *is* invoked (with the empty string) and the verdict is the critic's
output, not the fail-closed default: the guard tests `is not None`, not
non-emptiness. -/
theorem empty_code_critic_invoked_cex :
    (call cfgRevOnly svcEmptyCode ⟨some "q".toList, ()⟩).2.critiqueCalls = [[]] ∧
    ([[]] : List Str) ≠ [] ∧
    (call cfgRevOnly svcEmptyCode ⟨some "q".toList, ()⟩).1 =
      Except.ok ⟨some [], some " done".toList, none, none,
        some (SafetyVerdict.fromCritic "verdict".toList)⟩ :=
  ⟨rfl, by decide, rfl⟩

/-- C9 (amended): the critic is invoked exactly when the extracted code is
present — including when it is the empty string — and its raw output becomes
the verdict; the fail-closed default applies only when code is absent. -/
theorem critic_invoked_iff_code_present {Doc H : Type} (cfg : PipelineConfig H)
    (svc : PipelineServices Doc H) (q : Str) (hist : H) (c : Str)
    (h : (parse_code (answerOf cfg svc q hist)).1 = some c) :
    (call cfg svc ⟨some q, hist⟩).2.critiqueCalls = [c] ∧
    ∃ r, (call cfg svc ⟨some q, hist⟩).1 = Except.ok r ∧
      r.revision_request =
        (if cfg.return_revision_request
         then some (SafetyVerdict.fromCritic (svc.critique c)) else none) := by
  rw [call_some_eq, h]
  exact ⟨rfl, _, rfl, rfl⟩

/-- C9 (witness): the amended critic rule at a concrete run whose parsed
code body is the empty string. -/
theorem critic_invoked_iff_code_present_witness :
    (parse_code (answerOf cfgRevOnly svcEmptyCode "q".toList ())).1 = some [] ∧
    ((call cfgRevOnly svcEmptyCode ⟨some "q".toList, ()⟩).2.critiqueCalls
        = [([] : Str)] ∧
     ∃ r, (call cfgRevOnly svcEmptyCode ⟨some "q".toList, ()⟩).1 = Except.ok r ∧
       r.revision_request =
         (if cfgRevOnly.return_revision_request
          then some (SafetyVerdict.fromCritic (svcEmptyCode.critique [])) else none)) :=
  ⟨by decide,
   critic_invoked_iff_code_present cfgRevOnly svcEmptyCode "q".toList () []
     (by decide)⟩

/-- C10: with a custom chat-history formatter configured, save raises the
not-savable error and never reaches the base-class save that performs the
write; the base save is reached exactly when no custom formatter is set. -/
theorem save_guard :
    (∀ (H : Type) (f : H → Str),
      save (some f) =
        (Except.error
          "Chain not savable when `get_chat_history` is not None.".toList,
         false)) ∧
    (∀ H : Type, save (H := H) none = (Except.ok (), true)) :=
  ⟨fun _ _ => rfl, fun _ => rfl⟩

end ChatbotX
